import Mathlib

/-!
Shallow embedding of the nitro-enclave-kubelet core (packages `node`, `cli`,
`build`, `enclave`) and proofs about its specification claims.

Go strings are modelled as `List Char`; Go maps as association lists with
Go-map insert/lookup/delete semantics; Go `int64` quantities that are
non-negative in every reachable state (Kubernetes resource quantities,
CPU/memory counts) as `Nat`; fallible operations as `Option`/`Except`.
External processes (nitro-cli, linuxkit, eif_build) are modelled by
parameters giving each invocation's outcome.
-/

set_option autoImplicit false

/-- A Go string, as a list of characters. -/
abbrev Str := List Char

/-! ## Go map semantics (association lists)

Go `map[string]T` assignment `m[k] = v` replaces an existing binding or adds
a new one; `delete` removes it; indexing returns the value and an `ok` flag.
-/

/-- Go map assignment `m[k] = v`: replace the binding of `k` if present,
otherwise append a new one. -/
def mapInsert {α : Type} (k : Str) (v : α) : List (Str × α) → List (Str × α)
  | [] => [(k, v)]
  | (k2, v2) :: rest =>
    if k2 = k then (k, v) :: rest else (k2, v2) :: mapInsert k v rest

/-- Go map read `m[k]`: `some v` when the key is bound, `none` otherwise. -/
def mapLookup {α : Type} (k : Str) : List (Str × α) → Option α
  | [] => none
  | (k2, v2) :: rest => if k2 = k then some v2 else mapLookup k rest

/-- Go `delete(m, k)`. -/
def mapRemove {α : Type} (k : Str) : List (Str × α) → List (Str × α)
  | [] => []
  | (k2, v2) :: rest =>
    if k2 = k then mapRemove k rest else (k2, v2) :: mapRemove k rest

/-! ## Identity/tag codec (pkg/node/pod.go)

`buildEnclaveNameTag` renders `fmt.Sprintf("%s_%s_%s", enclaveNamePrefix,
namespace, name)`; `NewPodFromTag` runs `strings.Split(tag, "_")` and checks
the field count and the leading fixed component.
-/

/-- The fixed leading component of every tag: the source constant
`enclaveNamePrefix = "vk-podspec"`. -/
def enclaveNameTagHead : Str := "vk-podspec".toList

/-- The tag separator used by `buildEnclaveNameTag` and `strings.Split`. -/
def sepChar : Char := '_'

/-- Source `buildEnclaveNameTag(namespace, name)`:
`fmt.Sprintf("%s_%s_%s", enclaveNamePrefix, namespace, name)`. -/
def buildEnclaveNameTag (ns nm : Str) : Str :=
  enclaveNameTagHead ++ sepChar :: (ns ++ sepChar :: nm)

/-- Go `strings.Split(s, sep)` for a one-character separator: split around
every occurrence of `sep`, keeping empty fields; the result is never empty. -/
def splitSep (sep : Char) : Str → List Str
  | [] => [[]]
  | c :: rest =>
    match splitSep sep rest with
    | [] => [[]]
    | cur :: rs => if c = sep then [] :: cur :: rs else (c :: cur) :: rs

/-! ## Resource translator (pkg/node/container.go, `setResourceRequirements`)

A Kubernetes `ResourceList` is modelled by its two relevant optional entries.
The CPU entry carries `quantity.ScaledValue(resource.Milli)` (milli-cores);
the memory entry carries `quantity.Value()` (bytes).
-/

/-- The relevant entries of a Kubernetes `corev1.ResourceList`:
an optional CPU quantity in milli-cores and an optional memory quantity in
bytes. `none` models both a nil map and an absent key (`ok == false`). -/
structure ResourceList where
  cpu : Option Nat
  memory : Option Nat
  deriving DecidableEq

/-- Source `corev1.ResourceRequirements`: optional limits and requests maps. -/
structure ResourceRequirements where
  limits : Option ResourceList
  requests : Option ResourceList
  deriving DecidableEq

/-- Source `MiB = 1024 * 1024` (container.go). -/
def MiB : Nat := 1024 * 1024

/-- Source `containerDefaultCPULimit = 2` (container.go). -/
def containerDefaultCPULimit : Nat := 2

/-- Source `containerDefaultMemoryLimit = 512` MiB (container.go). -/
def containerDefaultMemoryLimit : Nat := 512

/-- Source `(*container).setResourceRequirements` from container.go, returning the
`(Cpu, Memory)` pair it stores into the container definition.
`smtActive` is the package-level flag sampled from the host once at start.
CPU: limits take priority, requests are the fallback, the milli quantity is
divided by 1000 (Go integer division) and doubled when SMT is active.
Memory: request and limit default to each other when only one is given, and
`memory = (limQuantity.Value() + MiB - 1) / MiB` when at least one is given. -/
def setResourceRequirements (smtActive : Bool)
    (reqs : Option ResourceRequirements) : Nat × Nat :=
  let cpu : Nat :=
    match reqs with
    | none => containerDefaultCPULimit
    | some r =>
      let fromLimits : Option Nat :=
        match r.limits with
        | some l => l.cpu
        | none => none
      let quantity : Option Nat :=
        match fromLimits with
        | some q => some q
        | none =>
          match r.requests with
          | some rq => rq.cpu
          | none => none
      match quantity with
      | none => containerDefaultCPULimit
      | some q => if smtActive then q / 1000 * 2 else q / 1000
  let memory : Nat :=
    match reqs with
    | none => containerDefaultMemoryLimit
    | some r =>
      let reqQuantity : Option Nat :=
        match r.requests with
        | some rq => rq.memory
        | none => none
      let limQuantity : Option Nat :=
        match r.limits with
        | some l => l.memory
        | none => none
      -- `if !limOk && reqOk { limQuantity = reqQuantity }`
      let limQuantity : Option Nat :=
        match limQuantity, reqQuantity with
        | none, some q => some q
        | lq, _ => lq
      -- `if reqOk || limOk { memory = (limQuantity.Value() + MiB - 1) / MiB }`
      match limQuantity with
      | some lim => (lim + MiB - 1) / MiB
      | none => containerDefaultMemoryLimit
  (cpu, memory)

/-- The CPU quantity that governs the translation: the limits entry when
present, otherwise the requests entry (specification-side helper used to
state the claims about `setResourceRequirements`). -/
def governingCpu (reqs : Option ResourceRequirements) : Option Nat :=
  match reqs with
  | none => none
  | some r =>
    match (match r.limits with | some l => l.cpu | none => none) with
    | some q => some q
    | none =>
      match r.requests with
      | some rq => rq.cpu
      | none => none

/-- The memory byte quantity that governs the translation: the limits entry
when present, otherwise the requests entry (specification-side helper). -/
def governingMemory (reqs : Option ResourceRequirements) : Option Nat :=
  match reqs with
  | none => none
  | some r =>
    match (match r.limits with | some l => l.memory | none => none) with
    | some q => some q
    | none =>
      match r.requests with
      | some rq => rq.memory
      | none => none

/-! ## Container definitions (pkg/node/container.go, `newContainer`)

`newContainer` builds a `containerDefinition` whose `Environment` field is a
Go map that is never allocated (the struct literal omits it, leaving the nil
map); writing to a nil Go map panics at runtime, modelled as `GoCrash`.
-/

/-- A Go runtime panic reachable in the embedded code. -/
inductive GoCrash where
  /-- assignment to an entry of a nil map -/
  | nilMapWrite
  /-- method call through a nil pointer (`cmd.Process.Kill()` with nil `Process`) -/
  | nilPointerDeref
  deriving DecidableEq

/-- Source `corev1.EnvVar`. -/
structure EnvVar where
  name : Str
  value : Str
  deriving DecidableEq

/-- Source `corev1.ContainerPort`: the two fields NewPod reads. -/
structure ContainerPort where
  containerPort : Int
  hostPort : Int
  deriving DecidableEq

/-- The relevant fields of a `corev1.Container` spec. `env : none` models a
nil `Env` slice, `some []` an allocated empty one. `resources` is a struct
value in Go (never nil), hence not optional here. -/
structure K8sContainer where
  name : Str
  image : Str
  command : List Str
  args : List Str
  env : Option (List EnvVar)
  ports : List ContainerPort
  resources : ResourceRequirements
  deriving DecidableEq

/-- Source `containerDefinition` (container.go). `environment : none` is the nil
map the struct literal in `newContainer` leaves in place. -/
structure containerDefinition where
  name : Str
  image : Str
  entryPoint : List Str
  command : List Str
  environment : Option (List (Str × Str))
  cpu : Nat
  memory : Nat
  deriving DecidableEq

/-- Go map assignment on a possibly-nil map: `m[k] = v` panics when `m` is
the nil map. -/
def nilableMapWrite (m : Option (List (Str × Str))) (k v : Str) :
    Except GoCrash (Option (List (Str × Str))) :=
  match m with
  | none => .error .nilMapWrite
  | some l => .ok (some (mapInsert k v l))

/-- The `for _, env := range spec.Env` loop body of `newContainer`:
`cntr.definition.Environment[env.Name] = env.Value` on each element. -/
def envLoop (m : Option (List (Str × Str))) :
    List EnvVar → Except GoCrash (Option (List (Str × Str)))
  | [] => .ok m
  | e :: rest =>
    match nilableMapWrite m e.name e.value with
    | .error p => .error p
    | .ok m2 => envLoop m2 rest

/-- Source `newContainer` (container.go): build the definition from the spec
(`EntryPoint := spec.Command`, `Command := spec.Args`), run the environment
loop over the never-allocated `Environment` map, then translate resources.
The Go function's declared error result is never non-nil; its only failure
mode is the nil-map-write panic, modelled as the `Except` error. -/
def newContainer (smtActive : Bool) (spec : K8sContainer) :
    Except GoCrash containerDefinition :=
  let envRes : Except GoCrash (Option (List (Str × Str))) :=
    match spec.env with
    | none => .ok none
    | some envs => envLoop none envs
  match envRes with
  | .error p => .error p
  | .ok envm =>
    let rm := setResourceRequirements smtActive (some spec.resources)
    .ok { name := spec.name, image := spec.image, entryPoint := spec.command,
          command := spec.args, environment := envm,
          cpu := rm.1, memory := rm.2 }

/-! ## Enclave runtime gateway types (pkg/cli/cli.go) -/

/-- Source `cli.EnclaveConfig`. -/
structure EnclaveConfig where
  enclaveName : Str
  cpuCount : Nat
  memoryMib : Nat
  eifPath : Str
  debugMode : Bool
  deriving DecidableEq

/-- Source `cli.EnclaveInfo`, as returned by `describe-enclaves`/`run-enclave`. -/
structure EnclaveInfo where
  enclaveName : Str
  enclaveID : Str
  processID : Int
  enclaveCID : Int
  numberOfCPUs : Nat
  memoryMiB : Nat
  state : Str
  flags : Str
  deriving DecidableEq

/-- Source `cli.TerminationResponse`. -/
structure TerminationResponse where
  enclaveID : Str
  terminated : Bool
  deriving DecidableEq

/-- Enclave state string `"RUNNING"` (pod.go `enclaveStateRunning`). -/
def enclaveStateRunning : Str := "RUNNING".toList

/-- Enclave state string `"TERMINATING"` (pod.go `enclaveStateTerminating`). -/
def enclaveStateTerminating : Str := "TERMINATING".toList

/-! ## Pod and registry (pkg/node/pod.go, pkg/node/node.go) -/

/-- Source `node.Pod`. `info : none` models the zero-value `cli.EnclaveInfo` before
launch; `listeners` counts the open listeners in `pod.listeners`. -/
structure Pod where
  nspace : Str
  name : Str
  uid : Str
  config : EnclaveConfig
  info : Option EnclaveInfo
  containers : List (Str × containerDefinition)
  ports : List ContainerPort
  listeners : Nat
  deriving DecidableEq

/-- The registry map `Node.pods : map[string]*Pod`. -/
abbrev Registry := List (Str × Pod)

/-- The relevant fields of a `corev1.Pod` workload descriptor. An owner
reference is an `(apiVersion, kind)` pair. -/
structure K8sPod where
  nspace : Str
  name : Str
  uid : Str
  ownerReferences : List (Str × Str)
  containers : List K8sContainer
  deriving DecidableEq

/-- Source `IsOwnedBy` (pod.go): some owner reference matches one of the given
group-version/kind pairs. -/
def IsOwnedBy (pod : K8sPod) (gvks : List (Str × Str)) : Bool :=
  gvks.any fun g => pod.ownerReferences.any fun o =>
    decide (o.1 = g.1 ∧ o.2 = g.2)

/-- Source `IsOwnedByDaemonSet` (pod.go): owned by `apps/v1 DaemonSet`. -/
def IsOwnedByDaemonSet (pod : K8sPod) : Bool :=
  IsOwnedBy pod [("apps/v1".toList, "DaemonSet".toList)]

/-- The `for _, containerSpec := range pod.Spec.Containers` loop of `NewPod`:
build each container, accumulate `config.CPUCount`/`config.MemoryMib`, append
port mappings, and insert the container into the pod's map, propagating the
nil-map panic from `newContainer`. -/
def containersLoop (smtActive : Bool) (pod : Pod) :
    List K8sContainer → Except GoCrash Pod
  | [] => .ok pod
  | spec :: rest =>
    match newContainer smtActive spec with
    | .error p => .error p
    | .ok cntr =>
      containersLoop smtActive
        { pod with
          config := { pod.config with
            cpuCount := pod.config.cpuCount + cntr.cpu,
            memoryMib := pod.config.memoryMib + cntr.memory },
          ports := pod.ports ++ spec.ports,
          containers := mapInsert spec.name cntr pod.containers }
        rest

/-- Errors surfaced by the create flow. Go reports the first two as wrapped
`error` values; `panicNilMap` models the unrecovered runtime panic from
`newContainer` reaching the caller. -/
inductive CreateErr where
  | daemonSetsUnsupported
  | tooManyContainers
  | panicNilMap
  | buildFailed
  | launchFailed
  deriving DecidableEq

/-- Source `node.NewPod` (pod.go): reject DaemonSet owners, compute the tag, reject
more than one container, run the container loop, then register the pod in
the node's map (`node.InsertPod(nitroPod, tag)`) — registration happens here,
before `Start` ever runs. Returns the built pod and the updated registry. -/
def NewPod (smtActive : Bool) (reg : Registry) (pod : K8sPod) :
    Except CreateErr (Pod × Registry) :=
  if IsOwnedByDaemonSet pod then .error .daemonSetsUnsupported
  else
    let tag := buildEnclaveNameTag pod.nspace pod.name
    let nitroPod : Pod :=
      { nspace := pod.nspace, name := pod.name, uid := pod.uid,
        config := { enclaveName := tag, cpuCount := 0, memoryMib := 0,
                    eifPath := [], debugMode := false },
        info := none, containers := [], ports := [], listeners := 0 }
    if pod.containers.length > 1 then .error .tooManyContainers
    else
      match containersLoop smtActive nitroPod pod.containers with
      | .error _ => .error .panicNilMap
      | .ok nitroPod => .ok (nitroPod, mapInsert tag nitroPod reg)

/-- Source `node.NewPodFromTag` (pod.go): split the tag on `"_"`; fail with the
invalid-tag error unless there are at least 3 fields and the first is the
fixed leading component; otherwise build a minimal pod (no containers, no
config beyond the zero value). -/
def NewPodFromTag (tag : Str) : Option Pod :=
  let data := splitSep sepChar tag
  if data.length < 3 ∨ ¬ data.headD [] = enclaveNameTagHead then none
  else
    some { nspace := data.getD 1 [], name := data.getD 2 [], uid := [],
           config := { enclaveName := [], cpuCount := 0, memoryMib := 0,
                       eifPath := [], debugMode := false },
           info := none, containers := [], ports := [], listeners := 0 }

/-- Source `(*Pod).Start` (pod.go). External effects are parameters: `buildOk` is
the outcome of `build.BuildEif`, `launch` the outcome of `cli.RunEnclave`
(`none` = error), `proxyBindOks` the outcome of each port mapping's
`net.Listen` and `logBindOk` of the log server's `vsock.Listen`.
The temp eif file name (from `os.CreateTemp`) is modelled by the enclave
name pattern it is created from. `Start` never touches the registry. -/
def Pod.Start (pod : Pod) (buildOk : Bool) (launch : Option EnclaveInfo)
    (proxyBindOks : List Bool) (logBindOk : Bool) : Except CreateErr Pod :=
  if buildOk = false then .error .buildFailed
  else
    let pod := { pod with
      config := { pod.config with
                    eifPath := pod.config.enclaveName,
                    debugMode := true } }
    match launch with
    | none => .error .launchFailed
    | some info =>
      let opened :=
        ((proxyBindOks.take pod.ports.length).filter (· = true)).length +
        (if logBindOk then 1 else 0)
      .ok { pod with info := some info, listeners := pod.listeners + opened }

/-- Source `(*EnclaveProvider).CreatePod` (provider.go): `NewPod` then `Start`; an
error from either is returned as the operation's result. The returned
registry is the node map as left behind by the two steps. -/
def CreatePod (smtActive : Bool) (reg : Registry) (pod : K8sPod)
    (buildOk : Bool) (launch : Option EnclaveInfo) (proxyBindOks : List Bool)
    (logBindOk : Bool) : Except CreateErr Unit × Registry :=
  match NewPod smtActive reg pod with
  | .error e => (.error e, reg)
  | .ok (enclavePod, reg1) =>
    match enclavePod.Start buildOk launch proxyBindOks logBindOk with
    | .error e => (.error e, reg1)
    | .ok _ => (.ok (), reg1)

/-! ## Status derivation and Stop (pkg/node/pod.go) -/

/-- The `corev1.PodPhase` values `GetStatus` can produce. -/
inductive PodPhase where
  | running
  | failed
  | unknown
  deriving DecidableEq

/-- Source `(*Pod).GetStatus` phase (pod.go): a fresh `cli.DescribeEnclaves` call is
made each time; `none` models its error (phase stays `PodUnknown`); otherwise
the phase is `PodRunning` exactly when some listed enclave carries this pod's
tag as its name with state `RUNNING` or `TERMINATING`, else `PodFailed`. -/
def Pod.GetStatusPhase (pod : Pod) (describe : Option (List EnclaveInfo)) :
    PodPhase :=
  match describe with
  | none => .unknown
  | some enclaves =>
    if enclaves.any (fun info =>
        decide (info.enclaveName = buildEnclaveNameTag pod.nspace pod.name ∧
          (info.state = enclaveStateRunning ∨
           info.state = enclaveStateTerminating))) then
      .running
    else .failed

/-- The observable outcome of one `(*Pod).Stop` call. -/
structure StopResult where
  /-- whether `cli.TerminateEnclave` was invoked -/
  terminateInvoked : Bool
  /-- how many of the pod's open listeners were closed -/
  listenersClosed : Nat
  /-- Field `some` = the wrapped terminate error returned by `Stop` -/
  result : Option CreateErr
  /-- the node's pod map afterwards -/
  registry : Registry
  deriving DecidableEq

/-- Source `(*Pod).Stop` (pod.go): terminate only when the freshly derived status
phase is `PodRunning`; a terminate error returns immediately (listeners stay
open, the pod stays registered); otherwise close every listener and remove
the pod from the node map. `describe` is the fresh `DescribeEnclaves`
outcome, `terminate` the `TerminateEnclave` outcome (`none` = error). -/
def Pod.Stop (pod : Pod) (reg : Registry)
    (describe : Option (List EnclaveInfo))
    (terminate : Option TerminationResponse) : StopResult :=
  let tag := buildEnclaveNameTag pod.nspace pod.name
  if pod.GetStatusPhase describe = .running then
    match terminate with
    | none =>
      { terminateInvoked := true, listenersClosed := 0,
        result := some .launchFailed, registry := reg }
    | some _ =>
      { terminateInvoked := true, listenersClosed := pod.listeners,
        result := none, registry := mapRemove tag reg }
  else
    { terminateInvoked := false, listenersClosed := pod.listeners,
      result := none, registry := mapRemove tag reg }

/-! ## Registry reconciliation (pkg/node/node.go, `loadPodState`) -/

/-- One iteration of the `for _, info := range enclaves` loop in
`loadPodState`: rebuild the pod from the enclave-name tag, skipping enclaves
whose tag does not parse, and store it under the tag with the listed
`EnclaveInfo`. -/
def loadStep (pods : Registry) (info : EnclaveInfo) : Registry :=
  match NewPodFromTag info.enclaveName with
  | none => pods
  | some pod => mapInsert info.enclaveName { pod with info := some info } pods

/-- Source `(*Node).loadPodState` applied to the `cli.DescribeEnclaves` result: the
fresh `pods` map built by the reconciliation loop (the node then adopts it
wholesale under its lock). Given a listing, the function itself never
fails — invalid tags are skipped. -/
def loadPodState (enclaves : List EnclaveInfo) : Registry :=
  enclaves.foldl loadStep []

/-- Whether a listed enclave's name parses as a managed pod tag
(specification-side helper for the reconciliation claims). -/
def validTagged (info : EnclaveInfo) : Bool :=
  (NewPodFromTag info.enclaveName).isSome

/-! ## Image build pipeline (pkg/build/eif.go, `BuildEif`)

The pipeline's own logic is straight-line sequencing with deferred cleanup;
its fallible effects are the three external invocations (`linuxkit build`
twice, `eif_build` once) and the read of the fixed `cmdline` file, modelled
as boolean/optional parameters. Temp-file and temp-dir creation (steps that
only fail when the host tmpfs does) are modelled as succeeding; every
created temp resource has a matching `defer` removal, which Go runs on
every return path.
-/

/-- The external invocations made by `BuildEif`, in program order. -/
inductive BuildCmd where
  | linuxkitBootstrap
  | linuxkitCustomer
  | eifBuild
  deriving DecidableEq

/-- The outcomes of `BuildEif`'s external effects: whether each invocation's
`command.Run()` returns nil, and the `ioutil.ReadFile(cmdline)` result. -/
structure BuildWorld where
  linuxkitBootstrapOk : Bool
  linuxkitCustomerOk : Bool
  eifBuildOk : Bool
  cmdline : Option Str
  deriving DecidableEq

/-- A failure returned by `BuildEif`. -/
inductive BuildFailure where
  | cmdFailed (cmd : BuildCmd)
  | readCmdlineFailed
  deriving DecidableEq

/-- The observable outcome of one `build.BuildEif` call. -/
structure BuildTrace where
  /-- external invocations actually run, in order -/
  invoked : List BuildCmd
  /-- the deferred `os.RemoveAll(artifactsDir)` ran, so the temporary
  artifact directory no longer exists on return -/
  artifactsDirRemoved : Bool
  /-- the deferred `os.Remove` calls for the bootstrap/customer manifests
  and the cmd/env temp files ran -/
  tempFilesRemoved : Bool
  /-- Flag set when `eif_build` ran successfully, producing the output eif file -/
  outputWritten : Bool
  /-- Field `none` = `BuildEif` returned nil -/
  result : Option BuildFailure
  deriving DecidableEq

/-- Source `build.BuildEif` (eif.go): create the artifact directory (deferred
`RemoveAll`), render both manifests and the cmd/env files (deferred
`Remove`s), run `linuxkit build` for the bootstrap then the customer layer,
read the kernel command line, then run `eif_build`; the first failing step
returns its error immediately, with every deferred cleanup running. -/
def BuildEif (w : BuildWorld) : BuildTrace :=
  if w.linuxkitBootstrapOk = false then
    { invoked := [.linuxkitBootstrap], artifactsDirRemoved := true,
      tempFilesRemoved := true, outputWritten := false,
      result := some (.cmdFailed .linuxkitBootstrap) }
  else if w.linuxkitCustomerOk = false then
    { invoked := [.linuxkitBootstrap, .linuxkitCustomer],
      artifactsDirRemoved := true, tempFilesRemoved := true,
      outputWritten := false,
      result := some (.cmdFailed .linuxkitCustomer) }
  else
    match w.cmdline with
    | none =>
      { invoked := [.linuxkitBootstrap, .linuxkitCustomer],
        artifactsDirRemoved := true, tempFilesRemoved := true,
        outputWritten := false, result := some .readCmdlineFailed }
    | some _ =>
      if w.eifBuildOk = false then
        { invoked := [.linuxkitBootstrap, .linuxkitCustomer, .eifBuild],
          artifactsDirRemoved := true, tempFilesRemoved := true,
          outputWritten := false, result := some (.cmdFailed .eifBuild) }
      else
        { invoked := [.linuxkitBootstrap, .linuxkitCustomer, .eifBuild],
          artifactsDirRemoved := true, tempFilesRemoved := true,
          outputWritten := true, result := none }

/-! ## Console attach (pkg/cli/cli.go, `Console` and `consoleReadCloser`)

`Console` builds an `exec.Cmd` for `nitro-cli console`, wires both of its
output streams to the write end of a fresh pipe, and returns the read end
wrapped in `consoleReadCloser` — without ever calling `cmd.Start()`, so
`cmd.Process` remains nil. `consoleReadCloser.Close` begins with
`r.cmd.Process.Kill()`.
-/

/-- A started OS process (`os.Process`), identified by its pid. -/
structure GoProcess where
  pid : Nat
  deriving DecidableEq

/-- The fields of `exec.Cmd` the embedding tracks. `process = none` models
the nil `Process` field, which `exec.Command` leaves unset until `Start`. -/
structure ExecCmd where
  path : Str
  args : List Str
  stdoutToPipe : Bool
  stderrToPipe : Bool
  process : Option GoProcess
  deriving DecidableEq

/-- Source `exec.Command(name, arg...)`: the command object before any start. -/
def goExecCommand (path : Str) (args : List Str) : ExecCmd :=
  { path := path, args := args, stdoutToPipe := false, stderrToPipe := false,
    process := none }

/-- Source `cli.consoleReadCloser`: the command plus both ends of the pipe. -/
structure ConsoleReadCloser where
  cmd : ExecCmd
  prOpen : Bool
  pwOpen : Bool
  deriving DecidableEq

/-- Source `cli.Console(enclaveID)` (cli.go): build the `nitro-cli console`
command, create a pipe (`pipeOk` is the `os.Pipe` outcome), point the
command's stdout and stderr at the write end, and return the wrapper.
No `cmd.Start()` is ever called. -/
def Console (enclaveID : Str) (pipeOk : Bool) : Option ConsoleReadCloser :=
  if pipeOk then
    let cmd := goExecCommand "nitro-cli".toList
      ["console".toList, "--enclave-id".toList, enclaveID]
    some { cmd := { cmd with stdoutToPipe := true, stderrToPipe := true },
           prOpen := true, pwOpen := true }
  else none

/-- What one `consoleReadCloser.Close` call does. -/
inductive CloseOutcome where
  /-- Case where `r.cmd.Process` is nil, so `r.cmd.Process.Kill()` panics -/
  | crash (p : GoCrash)
  /-- kill, reap, and close both pipe ends -/
  | closedAndReaped
  deriving DecidableEq

/-- Source `consoleReadCloser.Close` (cli.go): `Kill` the process, `Wait` for it,
then close both pipe ends. With a nil `Process` the very first call is a
nil-pointer dereference. -/
def ConsoleReadCloser.close (r : ConsoleReadCloser) : CloseOutcome :=
  match r.cmd.process with
  | none => .crash .nilPointerDeref
  | some _ => .closedAndReaped

/-- The registry entry the reconciliation loop produces for one listed
enclave: `none` when the tag does not parse, otherwise the minimal pod
carrying that entry's `EnclaveInfo`, keyed by the tag (specification-side
helper for the reconciliation claims). -/
def reconEntry (info : EnclaveInfo) : Option (Str × Pod) :=
  (NewPodFromTag info.enclaveName).map
    (fun pod => (info.enclaveName, { pod with info := some info }))

/-! # Helper lemmas -/

/-- The CPU half of `setResourceRequirements`, expressed through the
governing quantity (limits entry, else requests entry). -/
theorem setCpu_eq (smtActive : Bool) (reqs : Option ResourceRequirements) :
    (setResourceRequirements smtActive reqs).1 =
      match governingCpu reqs with
      | none => containerDefaultCPULimit
      | some q => if smtActive then q / 1000 * 2 else q / 1000 := by
  rcases reqs with _ | ⟨_ | ⟨_ | q, lm⟩, _ | ⟨_ | q2, rm⟩⟩ <;> rfl

/-- The memory half of `setResourceRequirements`, expressed through the
governing quantity (limits entry, else requests entry). -/
theorem setMem_eq (smtActive : Bool) (reqs : Option ResourceRequirements) :
    (setResourceRequirements smtActive reqs).2 =
      match governingMemory reqs with
      | none => containerDefaultMemoryLimit
      | some b => (b + MiB - 1) / MiB := by
  rcases reqs with _ | ⟨_ | ⟨lc, _ | b⟩, _ | ⟨rc, _ | b2⟩⟩ <;> rfl

/-! # Claims about the resource translator -/

/-- C3, counterexample: with SMT inactive, a fractional CPU limit of
`"500m"` (500 milli-cores) translates to 0 cores, refuting
`cpu_cores(output) ≥ 1` for that combination of requests and limits. -/
theorem cpu_at_least_one_counterexample :
    (setResourceRequirements false
      (some { limits := some { cpu := some 500, memory := none },
              requests := none })).1 = 0 ∧
    ¬ 1 ≤ (setResourceRequirements false
      (some { limits := some { cpu := some 500, memory := none },
              requests := none })).1 := by
  exact ⟨rfl, by decide⟩

/-- C3, amended: for every combination of requests and limits, the computed
CPU core count is even when SMT is active; when SMT is inactive it equals
the default 2 when no CPU quantity is given, and is at least 1 whenever the
governing CPU quantity (the limit, else the request) is at least one whole
core (1000 milli-units) — a fractional quantity below one core yields 0. -/
theorem cpu_even_under_smt_and_lower_bound (reqs : Option ResourceRequirements) :
    (setResourceRequirements true reqs).1 % 2 = 0 ∧
    (governingCpu reqs = none →
      (setResourceRequirements false reqs).1 = containerDefaultCPULimit) ∧
    (∀ q, governingCpu reqs = some q → 1000 ≤ q →
      1 ≤ (setResourceRequirements false reqs).1) := by
  refine ⟨?_, ?_, ?_⟩
  · rw [setCpu_eq]
    rcases governingCpu reqs with _ | q
    · rfl
    · exact Nat.mul_mod_left _ _
  · intro h
    rw [setCpu_eq, h]
  · intro q h hq
    rw [setCpu_eq, h]
    exact (Nat.one_le_div_iff (by decide)).2 hq

/-- C3, witness: SMT active with CPU limit 5000 milli gives an even count;
SMT inactive with CPU limit 3000 milli gives a count of at least 1. -/
theorem cpu_even_under_smt_and_lower_bound_witness :
    (setResourceRequirements true
      (some { limits := some { cpu := some 5000, memory := none },
              requests := none })).1 % 2 = 0 ∧
    1 ≤ (setResourceRequirements false
      (some { limits := some { cpu := some 3000, memory := none },
              requests := none })).1 :=
  ⟨(cpu_even_under_smt_and_lower_bound
      (some { limits := some { cpu := some 5000, memory := none },
              requests := none })).1,
   (cpu_even_under_smt_and_lower_bound
      (some { limits := some { cpu := some 3000, memory := none },
              requests := none })).2.2 3000 rfl (by decide)⟩

/-- C4: with SMT active, the CPU count is exactly double the whole-core
quantity `q / 1000` taken from the governing CPU quantity — the limit,
falling back to the request when no CPU limit is given. -/
theorem smt_doubles_whole_core_quantity (reqs : Option ResourceRequirements)
    (q : Nat) (h : governingCpu reqs = some q) :
    (setResourceRequirements true reqs).1 = q / 1000 * 2 := by
  rw [setCpu_eq, h]
  rfl

/-- C4, witness: end-to-end scenario B — SMT active, CPU limit `"3"`
(3000 milli-units) translates to a CPU count of 6. -/
theorem smt_doubles_whole_core_quantity_witness :
    (setResourceRequirements true
      (some { limits := some { cpu := some 3000, memory := none },
              requests := none })).1 = 6 :=
  (smt_doubles_whole_core_quantity
    (some { limits := some { cpu := some 3000, memory := none },
            requests := none }) 3000 rfl).trans (by decide)

/-- C9: whenever a memory quantity is given (the limit, with request and
limit defaulting to each other when only one is present), the translated
mebibyte count is the ceiling of the byte quantity divided by
1,048,576 — it is `bytes ⌈/⌉ MiB`, covers `bytes` and is the least such
mebibyte count. -/
theorem memory_is_ceiling_of_bytes (smtActive : Bool)
    (reqs : Option ResourceRequirements) (bytes : Nat)
    (h : governingMemory reqs = some bytes) :
    (setResourceRequirements smtActive reqs).2 = bytes ⌈/⌉ MiB ∧
    bytes ≤ (setResourceRequirements smtActive reqs).2 * MiB ∧
    (∀ k, bytes ≤ k * MiB → (setResourceRequirements smtActive reqs).2 ≤ k) := by
  have hMiB : 0 < MiB := by decide
  have e : (setResourceRequirements smtActive reqs).2 = bytes ⌈/⌉ MiB := by
    rw [setMem_eq, h, Nat.ceilDiv_eq_add_pred_div]
  refine ⟨e, ?_, ?_⟩
  · rw [e, Nat.mul_comm]
    exact le_smul_ceilDiv hMiB
  · intro k hk
    rw [e]
    exact (ceilDiv_le_iff_le_mul hMiB).2 (by rw [Nat.mul_comm]; exact hk)

/-- C9, witness: a memory request of 1,048,577 bytes (one byte above 1 MiB)
with no limit governs the translation and rounds up to 2 MiB. -/
theorem memory_is_ceiling_of_bytes_witness :
    governingMemory
      (some { limits := none,
              requests := some { cpu := none, memory := some 1048577 } }) =
      some 1048577 ∧
    (setResourceRequirements false
      (some { limits := none,
              requests := some { cpu := none, memory := some 1048577 } })).2 =
      1048577 ⌈/⌉ MiB ∧
    (setResourceRequirements false
      (some { limits := none,
              requests := some { cpu := none, memory := some 1048577 } })).2 = 2 :=
  ⟨rfl,
   (memory_is_ceiling_of_bytes false
     (some { limits := none,
             requests := some { cpu := none, memory := some 1048577 } })
     1048577 rfl).1,
   by decide⟩

/-! # Claims about the console attach and the build pipeline -/

/-- C2: at the concrete enclave ID `"i-abc"` (as at every other), `Console`
succeeds yet the command it wires to the pipe was never started — its
`Process` field is still nil — and closing the returned stream executes
`r.cmd.Process.Kill()` on that nil pointer, a runtime panic: no process is
attached, none can be terminated or reaped, and `Close` crashes. -/
theorem console_close_crashes_on_nil_process :
    ∃ r, Console "i-abc".toList true = some r ∧
      r.cmd.process = none ∧
      r.close = CloseOutcome.crash .nilPointerDeref :=
  ⟨_, rfl, rfl, rfl⟩

/-- C8: every failing external invocation of `BuildEif` aborts the pipeline
with that invocation's failure, with the temporary artifact directory (and
the manifest/cmd/env temp files) removed on return; in particular when the
second root-filesystem builder invocation fails, the image assembler is
never invoked and no output is written. -/
theorem buildEif_failure_aborts_and_cleans (w : BuildWorld) :
    (w.linuxkitBootstrapOk = false →
      (BuildEif w).result = some (.cmdFailed .linuxkitBootstrap) ∧
      (BuildEif w).invoked = [.linuxkitBootstrap] ∧
      (BuildEif w).outputWritten = false) ∧
    (w.linuxkitBootstrapOk = true → w.linuxkitCustomerOk = false →
      (BuildEif w).result = some (.cmdFailed .linuxkitCustomer) ∧
      (BuildEif w).invoked = [.linuxkitBootstrap, .linuxkitCustomer] ∧
      BuildCmd.eifBuild ∉ (BuildEif w).invoked ∧
      (BuildEif w).outputWritten = false) ∧
    (w.linuxkitBootstrapOk = true → w.linuxkitCustomerOk = true →
      w.eifBuildOk = false → ∀ s, w.cmdline = some s →
      (BuildEif w).result = some (.cmdFailed .eifBuild) ∧
      (BuildEif w).outputWritten = false) ∧
    ((BuildEif w).result ≠ none →
      (BuildEif w).artifactsDirRemoved = true ∧
      (BuildEif w).tempFilesRemoved = true ∧
      (BuildEif w).outputWritten = false) := by
  rcases w with ⟨b1, b2, b3, _ | s⟩ <;> cases b1 <;> cases b2 <;> cases b3 <;>
    simp [BuildEif]

/-- C8, witness: end-to-end scenario D — the second `linuxkit build`
invocation fails while everything else would succeed; the pipeline reports
that failure, never ran `eif_build`, wrote no output, and removed the
artifact directory. -/
theorem buildEif_failure_aborts_and_cleans_witness :
    (BuildEif { linuxkitBootstrapOk := true, linuxkitCustomerOk := false,
                eifBuildOk := true, cmdline := some [] }).result =
      some (.cmdFailed .linuxkitCustomer) ∧
    BuildCmd.eifBuild ∉
      (BuildEif { linuxkitBootstrapOk := true, linuxkitCustomerOk := false,
                  eifBuildOk := true, cmdline := some [] }).invoked ∧
    (BuildEif { linuxkitBootstrapOk := true, linuxkitCustomerOk := false,
                eifBuildOk := true, cmdline := some [] }).artifactsDirRemoved =
      true := by
  have h := buildEif_failure_aborts_and_cleans
    { linuxkitBootstrapOk := true, linuxkitCustomerOk := false,
      eifBuildOk := true, cmdline := some [] }
  exact ⟨(h.2.1 rfl rfl).1, (h.2.1 rfl rfl).2.2.1,
         (h.2.2.2 (by rw [(h.2.1 rfl rfl).1]; intro hc; cases hc)).1⟩

/-! # Claims about container construction -/

/-- C10: building a container definition from a spec that declares at least
one environment variable writes to the never-allocated `Environment` map and
panics; with a nil or empty environment it succeeds; hence `NewPod` — and so
pod creation — only gets past `newContainer` for container specs with an
empty environment. -/
theorem newContainer_env_write_panics (smtActive : Bool) (spec : K8sContainer) :
    (∀ e rest, spec.env = some (e :: rest) →
      newContainer smtActive spec = .error .nilMapWrite) ∧
    (spec.env = none → ∃ d, newContainer smtActive spec = .ok d) ∧
    (spec.env = some [] → ∃ d, newContainer smtActive spec = .ok d) ∧
    (∀ reg kpod c e rest, kpod.ownerReferences = [] → kpod.containers = [c] →
      c.env = some (e :: rest) →
      NewPod smtActive reg kpod = .error .panicNilMap) := by
  refine ⟨?_, ?_, ?_, ?_⟩
  · intro e rest h
    simp [newContainer, h, envLoop, nilableMapWrite]
  · intro h
    have e : newContainer smtActive spec = .ok
        { name := spec.name, image := spec.image, entryPoint := spec.command,
          command := spec.args, environment := none,
          cpu := (setResourceRequirements smtActive (some spec.resources)).1,
          memory := (setResourceRequirements smtActive (some spec.resources)).2 } := by
      simp only [newContainer, h]
    exact ⟨_, e⟩
  · intro h
    have e : newContainer smtActive spec = .ok
        { name := spec.name, image := spec.image, entryPoint := spec.command,
          command := spec.args, environment := none,
          cpu := (setResourceRequirements smtActive (some spec.resources)).1,
          memory := (setResourceRequirements smtActive (some spec.resources)).2 } := by
      simp only [newContainer, h, envLoop]
    exact ⟨_, e⟩
  · intro reg kpod c e rest hown hcs henv
    simp [NewPod, IsOwnedByDaemonSet, IsOwnedBy, hown, hcs, containersLoop,
          newContainer, henv, envLoop, nilableMapWrite]

/-- C10, witness: a spec with the single environment variable `K=V` panics,
the same spec with a nil environment succeeds, and `NewPod` on a one-container
pod carrying the former fails. -/
theorem newContainer_env_write_panics_witness :
    newContainer false
      { name := "app".toList, image := "img".toList, command := [], args := [],
        env := some [{ name := "K".toList, value := "V".toList }], ports := [],
        resources := { limits := none, requests := none } } =
      .error .nilMapWrite ∧
    (∃ d, newContainer false
      { name := "app".toList, image := "img".toList, command := [], args := [],
        env := none, ports := [],
        resources := { limits := none, requests := none } } = .ok d) ∧
    NewPod false []
      { nspace := "ns".toList, name := "pd".toList, uid := [],
        ownerReferences := [],
        containers := [{
          name := "app".toList, image := "img".toList,
          command := [], args := [],
          env := some [{ name := "K".toList, value := "V".toList }],
          ports := [],
          resources := { limits := none, requests := none } }] } =
      .error .panicNilMap := by
  have h := newContainer_env_write_panics false
    { name := "app".toList, image := "img".toList, command := [], args := [],
      env := some [{ name := "K".toList, value := "V".toList }], ports := [],
      resources := { limits := none, requests := none } }
  have h2 := newContainer_env_write_panics false
    { name := "app".toList, image := "img".toList, command := [], args := [],
      env := none, ports := [],
      resources := { limits := none, requests := none } }
  exact ⟨h.1 { name := "K".toList, value := "V".toList } [] rfl,
         h2.2.1 rfl,
         h.2.2.2 []
           { nspace := "ns".toList, name := "pd".toList, uid := [],
             ownerReferences := [],
             containers := [{
               name := "app".toList, image := "img".toList,
               command := [], args := [],
               env := some [{ name := "K".toList, value := "V".toList }],
               ports := [],
               resources := { limits := none, requests := none } }] }
           { name := "app".toList, image := "img".toList, command := [],
             args := [],
             env := some [{ name := "K".toList, value := "V".toList }],
             ports := [],
             resources := { limits := none, requests := none } }
           { name := "K".toList, value := "V".toList } [] rfl rfl rfl⟩

/-! # Claims about pod creation and the registry -/

/-- Looking up the key just written by a Go map assignment yields the
written value. -/
theorem mapLookup_mapInsert_self {α : Type} (k : Str) (v : α)
    (m : List (Str × α)) : mapLookup k (mapInsert k v m) = some v := by
  induction m with
  | nil => simp [mapInsert, mapLookup]
  | cons kv rest ih =>
    by_cases h : kv.1 = k <;> simp [mapInsert, mapLookup, h, ih]

/-- C1, counterexample: a one-container pod for which `NewPod` succeeds but
the image build fails. `CreatePod` reports the build failure, yet the
registry afterwards still holds an entry under the pod's tag — `NewPod`
registered the pod before `Start` ran, so a build error does not leave the
registry without an entry for that tag. -/
theorem createPod_buildError_counterexample :
    (CreatePod false []
      { nspace := "default".toList, name := "web".toList, uid := "u".toList,
        ownerReferences := [],
        containers := [{
          name := "app".toList, image := "img".toList, command := [],
          args := [], env := none, ports := [],
          resources := { limits := none, requests := none } }] }
      false none [] false).1 = .error .buildFailed ∧
    (mapLookup (buildEnclaveNameTag "default".toList "web".toList)
      (CreatePod false []
        { nspace := "default".toList, name := "web".toList, uid := "u".toList,
          ownerReferences := [],
          containers := [{
            name := "app".toList, image := "img".toList, command := [],
            args := [], env := none, ports := [],
            resources := { limits := none, requests := none } }] }
        false none [] false).2).isSome = true :=
  ⟨rfl, rfl⟩

/-- C1, amended: when `NewPod` succeeds and the image build step then fails,
`CreatePod` returns the build failure and the registry it leaves behind is
exactly the one `NewPod` produced — which contains the new pod under its
tag, inserted before the build ran; the registry is left unchanged only when
`NewPod` itself rejects the pod. -/
theorem createPod_buildError_keeps_registry_entry (smtActive : Bool)
    (reg : Registry) (kpod : K8sPod) (launch : Option EnclaveInfo)
    (proxyBindOks : List Bool) (logBindOk : Bool) :
    (∀ p reg1, NewPod smtActive reg kpod = .ok (p, reg1) →
      CreatePod smtActive reg kpod false launch proxyBindOks logBindOk =
        (.error .buildFailed, reg1) ∧
      mapLookup (buildEnclaveNameTag kpod.nspace kpod.name) reg1 = some p) ∧
    (∀ e, NewPod smtActive reg kpod = .error e →
      CreatePod smtActive reg kpod false launch proxyBindOks logBindOk =
        (.error e, reg)) := by
  constructor
  · intro p reg1 h
    have hreg : reg1 = mapInsert (buildEnclaveNameTag kpod.nspace kpod.name)
        p reg := by
      unfold NewPod at h
      split at h
      · cases h
      · split at h
        · cases h
        · dsimp only at h
          split at h
          · cases h
          · cases h
            rfl
    constructor
    · simp [CreatePod, h, Pod.Start]
    · rw [hreg]
      exact mapLookup_mapInsert_self _ _ _
  · intro e h
    simp [CreatePod, h]

/-- C1, witness for the amended claim: the concrete one-container pod from
the counterexample, with the build failing; `NewPod` succeeds on it, the
create result is the build error, and the registry keeps the entry. -/
theorem createPod_buildError_keeps_registry_entry_witness :
    (CreatePod false []
      { nspace := "dflt".toList, name := "web2".toList, uid := "u".toList,
        ownerReferences := [],
        containers := [{
          name := "app".toList, image := "img".toList, command := [],
          args := [], env := none, ports := [],
          resources := { limits := none, requests := none } }] }
      false none [] false).1 = .error .buildFailed ∧
    (mapLookup (buildEnclaveNameTag "dflt".toList "web2".toList)
      (CreatePod false []
        { nspace := "dflt".toList, name := "web2".toList, uid := "u".toList,
          ownerReferences := [],
          containers := [{
            name := "app".toList, image := "img".toList, command := [],
            args := [], env := none, ports := [],
            resources := { limits := none, requests := none } }]}
        false none [] false).2).isSome = true := by
  obtain ⟨p, reg1, e⟩ :
      ∃ p reg1, NewPod false []
        { nspace := "dflt".toList, name := "web2".toList, uid := "u".toList,
          ownerReferences := [],
          containers := [{
            name := "app".toList, image := "img".toList, command := [],
            args := [], env := none, ports := [],
            resources := { limits := none, requests := none } }] } =
        .ok (p, reg1) := ⟨_, _, rfl⟩
  have h := (createPod_buildError_keeps_registry_entry false []
    { nspace := "dflt".toList, name := "web2".toList, uid := "u".toList,
      ownerReferences := [],
      containers := [{
        name := "app".toList, image := "img".toList, command := [],
        args := [], env := none, ports := [],
        resources := { limits := none, requests := none } }] }
    none [] false).1 p reg1 e
  rw [h.1]
  exact ⟨rfl, by rw [h.2]; rfl⟩

/-! # Claims about Stop and status derivation -/

/-- C7, counterexample: a pod whose fresh status reports `RUNNING`, with the
runtime's terminate call failing. `Stop` does invoke terminate, but returns
the error immediately — the pod is *not* removed from the registry, refuting
"in both cases the pod is removed from the registry". -/
theorem stop_removal_counterexample :
    (Pod.Stop
      { nspace := "a".toList, name := "b".toList, uid := [],
        config := { enclaveName := buildEnclaveNameTag "a".toList "b".toList,
                    cpuCount := 2, memoryMib := 512, eifPath := [],
                    debugMode := true },
        info := none, containers := [], ports := [], listeners := 2 }
      [(buildEnclaveNameTag "a".toList "b".toList,
        { nspace := "a".toList, name := "b".toList, uid := [],
          config := { enclaveName := buildEnclaveNameTag "a".toList "b".toList,
                      cpuCount := 2, memoryMib := 512, eifPath := [],
                      debugMode := true },
          info := none, containers := [], ports := [], listeners := 2 })]
      (some [{ enclaveName := buildEnclaveNameTag "a".toList "b".toList,
               enclaveID := "i-1".toList, processID := 7, enclaveCID := 16,
               numberOfCPUs := 2, memoryMiB := 512,
               state := enclaveStateRunning, flags := "NONE".toList }])
      none).terminateInvoked = true ∧
    (mapLookup (buildEnclaveNameTag "a".toList "b".toList)
      (Pod.Stop
        { nspace := "a".toList, name := "b".toList, uid := [],
          config := { enclaveName := buildEnclaveNameTag "a".toList "b".toList,
                      cpuCount := 2, memoryMib := 512, eifPath := [],
                      debugMode := true },
          info := none, containers := [], ports := [], listeners := 2 }
        [(buildEnclaveNameTag "a".toList "b".toList,
          { nspace := "a".toList, name := "b".toList, uid := [],
            config := { enclaveName := buildEnclaveNameTag "a".toList
                          "b".toList,
                        cpuCount := 2, memoryMib := 512, eifPath := [],
                        debugMode := true },
            info := none, containers := [], ports := [], listeners := 2 })]
        (some [{ enclaveName := buildEnclaveNameTag "a".toList "b".toList,
                 enclaveID := "i-1".toList, processID := 7, enclaveCID := 16,
                 numberOfCPUs := 2, memoryMiB := 512,
                 state := enclaveStateRunning, flags := "NONE".toList }])
        none).registry).isSome = true := by
  exact ⟨rfl, rfl⟩

/-- C7, amended: `Stop` invokes terminate iff the freshly derived status
phase is running (which covers the runtime states `RUNNING` and
`TERMINATING`); when the fresh status reports failed, terminate is not
invoked and only listener closing and registry removal occur; the pod is
removed from the registry in both cases provided the terminate call, when
made, succeeds — a failing terminate makes `Stop` return the error with the
pod still registered and its listeners still open. -/
theorem stop_terminates_iff_running (pod : Pod) (reg : Registry)
    (describe : Option (List EnclaveInfo))
    (terminate : Option TerminationResponse) :
    ((pod.Stop reg describe terminate).terminateInvoked = true ↔
      pod.GetStatusPhase describe = .running) ∧
    (pod.GetStatusPhase describe = .failed →
      (pod.Stop reg describe terminate).terminateInvoked = false ∧
      (pod.Stop reg describe terminate).listenersClosed = pod.listeners ∧
      (pod.Stop reg describe terminate).registry =
        mapRemove (buildEnclaveNameTag pod.nspace pod.name) reg ∧
      (pod.Stop reg describe terminate).result = none) ∧
    (pod.GetStatusPhase describe = .running → terminate ≠ none →
      (pod.Stop reg describe terminate).listenersClosed = pod.listeners ∧
      (pod.Stop reg describe terminate).registry =
        mapRemove (buildEnclaveNameTag pod.nspace pod.name) reg) ∧
    (pod.GetStatusPhase describe = .running → terminate = none →
      (pod.Stop reg describe terminate).registry = reg ∧
      (pod.Stop reg describe terminate).result ≠ none) := by
  by_cases h : pod.GetStatusPhase describe = .running
  · rcases terminate with _ | t <;> simp [Pod.Stop, h]
  · have hni : (pod.Stop reg describe terminate).terminateInvoked = false ∧
        (pod.Stop reg describe terminate).listenersClosed = pod.listeners ∧
        (pod.Stop reg describe terminate).registry =
          mapRemove (buildEnclaveNameTag pod.nspace pod.name) reg ∧
        (pod.Stop reg describe terminate).result = none := by
      simp [Pod.Stop, h]
    refine ⟨?_, fun _ => hni, fun hr => absurd hr h, fun hr => absurd hr h⟩
    rw [hni.1]
    simp [h]

/-- C7, witness for the amended claim: scenario C — a pod whose fresh status
lists it as `TERMINATING` has terminate invoked (and, terminate succeeding,
is removed); the same pod with a listing that carries no matching entry
reports failed, skips terminate, and is removed. -/
theorem stop_terminates_iff_running_witness :
    (Pod.Stop
      { nspace := "c".toList, name := "d".toList, uid := [],
        config := { enclaveName := buildEnclaveNameTag "c".toList "d".toList,
                    cpuCount := 2, memoryMib := 512, eifPath := [],
                    debugMode := true },
        info := none, containers := [], ports := [], listeners := 1 }
      [] (some [{ enclaveName := buildEnclaveNameTag "c".toList "d".toList,
                  enclaveID := "i-2".toList, processID := 8, enclaveCID := 17,
                  numberOfCPUs := 2, memoryMiB := 512,
                  state := enclaveStateTerminating, flags := "NONE".toList }])
      (some { enclaveID := "i-2".toList, terminated := true })).terminateInvoked
      = true ∧
    (Pod.Stop
      { nspace := "c".toList, name := "d".toList, uid := [],
        config := { enclaveName := buildEnclaveNameTag "c".toList "d".toList,
                    cpuCount := 2, memoryMib := 512, eifPath := [],
                    debugMode := true },
        info := none, containers := [], ports := [], listeners := 1 }
      [] (some []) none).terminateInvoked = false ∧
    (Pod.Stop
      { nspace := "c".toList, name := "d".toList, uid := [],
        config := { enclaveName := buildEnclaveNameTag "c".toList "d".toList,
                    cpuCount := 2, memoryMib := 512, eifPath := [],
                    debugMode := true },
        info := none, containers := [], ports := [], listeners := 1 }
      [] (some []) none).registry =
      mapRemove (buildEnclaveNameTag "c".toList "d".toList) [] := by
  have h1 := stop_terminates_iff_running
    { nspace := "c".toList, name := "d".toList, uid := [],
      config := { enclaveName := buildEnclaveNameTag "c".toList "d".toList,
                  cpuCount := 2, memoryMib := 512, eifPath := [],
                  debugMode := true },
      info := none, containers := [], ports := [], listeners := 1 }
    [] (some [{ enclaveName := buildEnclaveNameTag "c".toList "d".toList,
                enclaveID := "i-2".toList, processID := 8, enclaveCID := 17,
                numberOfCPUs := 2, memoryMiB := 512,
                state := enclaveStateTerminating, flags := "NONE".toList }])
    (some { enclaveID := "i-2".toList, terminated := true })
  have h2 := stop_terminates_iff_running
    { nspace := "c".toList, name := "d".toList, uid := [],
      config := { enclaveName := buildEnclaveNameTag "c".toList "d".toList,
                  cpuCount := 2, memoryMib := 512, eifPath := [],
                  debugMode := true },
      info := none, containers := [], ports := [], listeners := 1 }
    [] (some []) none
  exact ⟨h1.1.mpr rfl, (h2.2.1 rfl).1, (h2.2.1 rfl).2.2.1⟩

/-! # Claims about the tag codec -/

/-- Lemma: `strings.Split` never yields an empty field list. -/
theorem splitSep_ne_nil (sep : Char) (l : Str) : splitSep sep l ≠ [] := by
  cases l with
  | nil => simp [splitSep]
  | cons c rest =>
    rw [splitSep]
    rcases splitSep sep rest with _ | ⟨cur, rs⟩
    · simp
    · dsimp only
      split <;> simp

/-- Splitting a separator-free string yields the single field. -/
theorem splitSep_sepFree (sep : Char) (l : Str) (h : sep ∉ l) :
    splitSep sep l = [l] := by
  induction l with
  | nil => rfl
  | cons c rest ih =>
    simp only [List.mem_cons, not_or] at h
    have hc : ¬ c = sep := fun e => h.1 e.symm
    rw [splitSep, ih h.2]
    simp [hc]

/-- Splitting peels a separator-free segment before a separator off as the
first field. -/
theorem splitSep_append (sep : Char) (a b : Str) (h : sep ∉ a) :
    splitSep sep (a ++ sep :: b) = a :: splitSep sep b := by
  induction a with
  | nil =>
    obtain ⟨cur, rs, e⟩ := List.exists_cons_of_ne_nil (splitSep_ne_nil sep b)
    simp only [List.nil_append]
    rw [splitSep, e]
    simp [e]
  | cons c a ih =>
    simp only [List.mem_cons, not_or] at h
    have hc : ¬ c = sep := fun e => h.1 e.symm
    simp only [List.cons_append]
    rw [splitSep, ih h.2]
    simp [hc]

/-- The first field produced by `strings.Split` is a prefix of the split
string. -/
theorem splitSep_headD_isPrefixOf (sep : Char) (l : Str) :
    ((splitSep sep l).headD []).isPrefixOf l = true := by
  induction l with
  | nil => rfl
  | cons c rest ih =>
    rw [splitSep]
    rcases e : splitSep sep rest with _ | ⟨cur, rs⟩
    · exact absurd e (splitSep_ne_nil sep rest)
    · rw [e] at ih
      by_cases hc : c = sep
      · simp [hc]
      · simp only [if_neg hc, List.headD_cons, List.isPrefixOf_cons₂]
        simp only [List.headD_cons] at ih
        simp [ih]

/-- C5: for every namespace and name free of the separator character,
rebuilding a pod from the encoded tag recovers exactly that namespace and
name; and decoding fails for every string the fixed leading component is
not a prefix of, as well as for every string splitting into fewer than 3
fields. -/
theorem tag_codec_roundtrip_and_rejection (ns nm tag : Str) :
    (sepChar ∉ ns → sepChar ∉ nm →
      ∃ p, NewPodFromTag (buildEnclaveNameTag ns nm) = some p ∧
        p.nspace = ns ∧ p.name = nm) ∧
    (enclaveNameTagHead.isPrefixOf tag = false → NewPodFromTag tag = none) ∧
    ((splitSep sepChar tag).length < 3 → NewPodFromTag tag = none) := by
  refine ⟨?_, ?_, ?_⟩
  · intro hns hnm
    have hhead : sepChar ∉ enclaveNameTagHead := by decide
    have e1 : splitSep sepChar (buildEnclaveNameTag ns nm) =
        [enclaveNameTagHead, ns, nm] := by
      rw [buildEnclaveNameTag, splitSep_append _ _ _ hhead,
          splitSep_append _ _ _ hns, splitSep_sepFree _ _ hnm]
    refine ⟨{ nspace := ns, name := nm, uid := [],
              config := { enclaveName := [], cpuCount := 0, memoryMib := 0,
                          eifPath := [], debugMode := false },
              info := none, containers := [], ports := [], listeners := 0 },
            ?_, rfl, rfl⟩
    simp [NewPodFromTag, e1]
  · intro hpre
    by_cases hcond : (splitSep sepChar tag).length < 3 ∨
        ¬ (splitSep sepChar tag).headD [] = enclaveNameTagHead
    · simp only [NewPodFromTag]
      rw [if_pos hcond]
    · exfalso
      push_neg at hcond
      have hh := splitSep_headD_isPrefixOf sepChar tag
      rw [hcond.2] at hh
      rw [hh] at hpre
      cases hpre
  · intro hlen
    simp only [NewPodFromTag]
    rw [if_pos (Or.inl hlen)]

/-- C5, witness: the tag encoded from `default`/`web` decodes back to that
pair; a string without the fixed leading component and a string with only
one field are both rejected. -/
theorem tag_codec_roundtrip_and_rejection_witness :
    (∃ p, NewPodFromTag
        (buildEnclaveNameTag "default".toList "web".toList) = some p ∧
      p.nspace = "default".toList ∧ p.name = "web".toList) ∧
    NewPodFromTag "foo_a_b".toList = none ∧
    NewPodFromTag "vk-podspec".toList = none :=
  ⟨(tag_codec_roundtrip_and_rejection "default".toList "web".toList
      []).1 (by decide) (by decide),
   (tag_codec_roundtrip_and_rejection [] [] "foo_a_b".toList).2.1 (by decide),
   (tag_codec_roundtrip_and_rejection [] [] "vk-podspec".toList).2.2
     (by decide)⟩

/-! # Claims about registry reconciliation -/

/-- Writing an absent key appends the new binding. -/
theorem mapInsert_of_lookup_none {α : Type} (k : Str) (v : α)
    (m : List (Str × α)) (h : mapLookup k m = none) :
    mapInsert k v m = m ++ [(k, v)] := by
  induction m with
  | nil => rfl
  | cons kv rest ih =>
    obtain ⟨k2, v2⟩ := kv
    rw [mapLookup] at h
    by_cases hk : k2 = k
    · rw [if_pos hk] at h
      cases h
    · rw [if_neg hk] at h
      rw [mapInsert, if_neg hk, ih h]
      rfl

/-- Lookup distributes over list append, preferring the left part. -/
theorem mapLookup_append {α : Type} (k : Str) (m1 m2 : List (Str × α)) :
    mapLookup k (m1 ++ m2) =
      match mapLookup k m1 with
      | some v => some v
      | none => mapLookup k m2 := by
  induction m1 with
  | nil => rfl
  | cons kv rest ih =>
    by_cases hk : kv.1 = k <;> simp [mapLookup, hk, ih]

/-- The reconciliation fold, from any accumulator whose keys avoid the valid
listed tags: it appends exactly the entries of the valid listed enclaves. -/
theorem loadPodState_foldl (es : List EnclaveInfo) (acc : Registry)
    (hacc : ∀ e ∈ es, validTagged e = true →
      mapLookup e.enclaveName acc = none)
    (hnodup : ((es.filter validTagged).map (fun e => e.enclaveName)).Nodup) :
    es.foldl loadStep acc = acc ++ es.filterMap reconEntry := by
  induction es generalizing acc with
  | nil => simp
  | cons e rest ih =>
    rcases he : NewPodFromTag e.enclaveName with _ | pod
    · have hv : validTagged e = false := by simp [validTagged, he]
      have hstep : loadStep acc e = acc := by simp [loadStep, he]
      rw [List.foldl_cons, hstep]
      rw [ih acc (fun e2 hm hv2 => hacc e2 (List.mem_cons_of_mem e hm) hv2)
        (by simpa [List.filter_cons, hv] using hnodup)]
      simp [List.filterMap_cons, reconEntry, he]
    · have hv : validTagged e = true := by simp [validTagged, he]
      have hlook := hacc e (List.mem_cons_self e rest) hv
      have hstep : loadStep acc e =
          acc ++ [(e.enclaveName, { pod with info := some e })] := by
        simp [loadStep, he, mapInsert_of_lookup_none _ _ _ hlook]
      have hfil : (e :: rest).filter validTagged =
          e :: rest.filter validTagged := by simp [List.filter_cons, hv]
      rw [hfil, List.map_cons, List.nodup_cons] at hnodup
      obtain ⟨hnotin, hnd⟩ := hnodup
      have hacc2 : ∀ e2 ∈ rest, validTagged e2 = true →
          mapLookup e2.enclaveName
            (acc ++ [(e.enclaveName, { pod with info := some e })]) = none := by
        intro e2 hm hv2
        rw [mapLookup_append, hacc e2 (List.mem_cons_of_mem e hm) hv2]
        have hne : ¬ e.enclaveName = e2.enclaveName := by
          intro hEq
          exact hnotin (hEq ▸ List.mem_map_of_mem _
            (List.mem_filter.mpr ⟨hm, hv2⟩))
        simp [mapLookup, hne]
      rw [List.foldl_cons, hstep, ih _ hacc2 hnd, List.append_assoc]
      simp [List.filterMap_cons, reconEntry, he]

/-- The reconciled registry holds one entry per valid listed enclave. -/
theorem filterMap_reconEntry_length (es : List EnclaveInfo) :
    (es.filterMap reconEntry).length = (es.filter validTagged).length := by
  induction es with
  | nil => rfl
  | cons e rest ih =>
    rcases he : NewPodFromTag e.enclaveName with _ | pod <;>
      simp [List.filterMap_cons, List.filter_cons, reconEntry, validTagged,
            he, ih]

/-- Under distinct valid tags, lookup in the reconciled entries finds each
valid listed enclave's pod. -/
theorem mapLookup_filterMap_reconEntry (es : List EnclaveInfo)
    (hnodup : ((es.filter validTagged).map (fun e => e.enclaveName)).Nodup)
    (e : EnclaveInfo) (hmem : e ∈ es) (pod : Pod)
    (hpod : NewPodFromTag e.enclaveName = some pod) :
    mapLookup e.enclaveName (es.filterMap reconEntry) =
      some { pod with info := some e } := by
  induction es with
  | nil => cases hmem
  | cons e1 rest ih =>
    rcases List.mem_cons.mp hmem with rfl | hmem2
    · simp [List.filterMap_cons, reconEntry, hpod, mapLookup]
    · rcases h1 : NewPodFromTag e1.enclaveName with _ | p1
      · have hv1 : validTagged e1 = false := by simp [validTagged, h1]
        rw [List.filterMap_cons]
        simp only [reconEntry, h1, Option.map_none']
        exact ih (by simpa [List.filter_cons, hv1] using hnodup) hmem2
      · have hv1 : validTagged e1 = true := by simp [validTagged, h1]
        have hfil : (e1 :: rest).filter validTagged =
            e1 :: rest.filter validTagged := by simp [List.filter_cons, hv1]
        rw [hfil, List.map_cons, List.nodup_cons] at hnodup
        obtain ⟨hnotin, hnd⟩ := hnodup
        have hve : validTagged e = true := by simp [validTagged, hpod]
        have hne : ¬ e1.enclaveName = e.enclaveName := by
          intro hEq
          exact hnotin (hEq ▸ List.mem_map_of_mem _
            (List.mem_filter.mpr ⟨hmem2, hve⟩))
        rw [List.filterMap_cons]
        simp only [reconEntry, h1, Option.map_some']
        rw [mapLookup]
        simp only [hne, if_false]
        exact ih hnd hmem2

/-- C6, counterexample: a runtime listing with two entries carrying the same
valid tag has N = 2 valid entries, yet the reconstructed registry holds a
single pod — the second insert overwrites the first — refuting "exactly N
pods" for that listing. -/
theorem registry_reconciliation_counterexample :
    (([{ enclaveName := buildEnclaveNameTag "a".toList "b".toList,
         enclaveID := "i-1".toList, processID := 7, enclaveCID := 16,
         numberOfCPUs := 2, memoryMiB := 512,
         state := enclaveStateRunning, flags := "NONE".toList },
       { enclaveName := buildEnclaveNameTag "a".toList "b".toList,
         enclaveID := "i-1".toList, processID := 7, enclaveCID := 16,
         numberOfCPUs := 2, memoryMiB := 512,
         state := enclaveStateRunning, flags := "NONE".toList }] :
        List EnclaveInfo).filter validTagged).length = 2 ∧
    (loadPodState
      [{ enclaveName := buildEnclaveNameTag "a".toList "b".toList,
         enclaveID := "i-1".toList, processID := 7, enclaveCID := 16,
         numberOfCPUs := 2, memoryMiB := 512,
         state := enclaveStateRunning, flags := "NONE".toList },
       { enclaveName := buildEnclaveNameTag "a".toList "b".toList,
         enclaveID := "i-1".toList, processID := 7, enclaveCID := 16,
         numberOfCPUs := 2, memoryMiB := 512,
         state := enclaveStateRunning, flags := "NONE".toList }]).length =
      1 :=
  ⟨rfl, rfl⟩

/-- C6, amended: for every runtime listing whose valid-tagged entries carry
pairwise distinct names, the reconstructed registry holds exactly one pod
per valid entry — N pods — each stored under its decoded tag with that
entry's `EnclaveInfo`; entries whose names do not decode are skipped without
error (removing one leaves the result unchanged). When valid entries share
a tag, later entries overwrite earlier ones and the registry holds fewer
pods than valid entries. -/
theorem registry_reconciliation (enclaves : List EnclaveInfo)
    (hnodup : ((enclaves.filter validTagged).map
      (fun e => e.enclaveName)).Nodup) :
    (loadPodState enclaves).length =
      (enclaves.filter validTagged).length ∧
    (∀ e ∈ enclaves, ∀ pod, NewPodFromTag e.enclaveName = some pod →
      mapLookup e.enclaveName (loadPodState enclaves) =
        some { pod with info := some e }) ∧
    (∀ pre post e2, NewPodFromTag e2.enclaveName = none →
      loadPodState (pre ++ e2 :: post) = loadPodState (pre ++ post)) := by
  have hchar : loadPodState enclaves = enclaves.filterMap reconEntry := by
    have h := loadPodState_foldl enclaves [] (fun e _ _ => rfl) hnodup
    simpa [loadPodState] using h
  refine ⟨?_, ?_, ?_⟩
  · rw [hchar, filterMap_reconEntry_length]
  · intro e hmem pod hpod
    rw [hchar]
    exact mapLookup_filterMap_reconEntry enclaves hnodup e hmem pod hpod
  · intro pre post e2 h
    simp [loadPodState, List.foldl_append, loadStep, h]

/-- C6, witness for the amended claim: a listing with one valid-tagged entry
and one foreign entry reconciles to exactly one pod, stored under the
decoded tag with the listed `EnclaveInfo`, and dropping the foreign entry
from the listing leaves the registry unchanged. -/
theorem registry_reconciliation_witness :
    (loadPodState
      [{ enclaveName := buildEnclaveNameTag "a".toList "b".toList,
         enclaveID := "i-1".toList, processID := 7, enclaveCID := 16,
         numberOfCPUs := 2, memoryMiB := 512,
         state := enclaveStateRunning, flags := "NONE".toList },
       { enclaveName := "other".toList, enclaveID := "i-9".toList,
         processID := 9, enclaveCID := 20, numberOfCPUs := 2,
         memoryMiB := 512, state := enclaveStateRunning,
         flags := "NONE".toList }]).length = 1 ∧
    mapLookup (buildEnclaveNameTag "a".toList "b".toList)
      (loadPodState
        [{ enclaveName := buildEnclaveNameTag "a".toList "b".toList,
           enclaveID := "i-1".toList, processID := 7, enclaveCID := 16,
           numberOfCPUs := 2, memoryMiB := 512,
           state := enclaveStateRunning, flags := "NONE".toList },
         { enclaveName := "other".toList, enclaveID := "i-9".toList,
           processID := 9, enclaveCID := 20, numberOfCPUs := 2,
           memoryMiB := 512, state := enclaveStateRunning,
           flags := "NONE".toList }]) =
      some { nspace := "a".toList, name := "b".toList, uid := [],
             config := { enclaveName := [], cpuCount := 0, memoryMib := 0,
                         eifPath := [], debugMode := false },
             info := some
               { enclaveName := buildEnclaveNameTag "a".toList "b".toList,
                 enclaveID := "i-1".toList, processID := 7, enclaveCID := 16,
                 numberOfCPUs := 2, memoryMiB := 512,
                 state := enclaveStateRunning, flags := "NONE".toList },
             containers := [], ports := [], listeners := 0 } ∧
    loadPodState
      [{ enclaveName := buildEnclaveNameTag "a".toList "b".toList,
         enclaveID := "i-1".toList, processID := 7, enclaveCID := 16,
         numberOfCPUs := 2, memoryMiB := 512,
         state := enclaveStateRunning, flags := "NONE".toList },
       { enclaveName := "other".toList, enclaveID := "i-9".toList,
         processID := 9, enclaveCID := 20, numberOfCPUs := 2,
         memoryMiB := 512, state := enclaveStateRunning,
         flags := "NONE".toList }] =
      loadPodState
        [{ enclaveName := buildEnclaveNameTag "a".toList "b".toList,
           enclaveID := "i-1".toList, processID := 7, enclaveCID := 16,
           numberOfCPUs := 2, memoryMiB := 512,
           state := enclaveStateRunning, flags := "NONE".toList }] := by
  have h := registry_reconciliation
    [{ enclaveName := buildEnclaveNameTag "a".toList "b".toList,
       enclaveID := "i-1".toList, processID := 7, enclaveCID := 16,
       numberOfCPUs := 2, memoryMiB := 512,
       state := enclaveStateRunning, flags := "NONE".toList },
     { enclaveName := "other".toList, enclaveID := "i-9".toList,
       processID := 9, enclaveCID := 20, numberOfCPUs := 2,
       memoryMiB := 512, state := enclaveStateRunning,
       flags := "NONE".toList }] (by decide)
  refine ⟨h.1.trans (by decide), ?_, ?_⟩
  · exact h.2.1 _ (List.mem_cons_self _ _)
      { nspace := "a".toList, name := "b".toList, uid := [],
        config := { enclaveName := [], cpuCount := 0, memoryMib := 0,
                    eifPath := [], debugMode := false },
        info := none, containers := [], ports := [], listeners := 0 }
      (by decide)
  · exact h.2.2
      [{ enclaveName := buildEnclaveNameTag "a".toList "b".toList,
         enclaveID := "i-1".toList, processID := 7, enclaveCID := 16,
         numberOfCPUs := 2, memoryMiB := 512,
         state := enclaveStateRunning, flags := "NONE".toList }] []
      { enclaveName := "other".toList, enclaveID := "i-9".toList,
        processID := 9, enclaveCID := 20, numberOfCPUs := 2,
        memoryMiB := 512, state := enclaveStateRunning,
        flags := "NONE".toList } (by decide)
